import Mathlib

/-!
Shallow embedding of the tuning engine of `src/components/GuitarTuner.tsx`.

Conventions used throughout:
* JavaScript floating-point numbers are modelled as exact rationals (`ℚ`);
  the transcendental cents computations (`Math.log2`) are modelled over `ℝ`
  with `Real.logb 2`, and where the source branches on such a quantity we use
  a provably order-equivalent rational test (see `dKey` and `centsJumpGt50`).
* `Date.now()` timestamps are integer milliseconds (`ℤ`); the several
  `Date.now()` calls inside one animation frame are modelled as a single
  `now` parameter.
* The loudness value returned by the meter may be `-Infinity` (silence); it
  is modelled as `Option ℚ`, `none` standing for `-∞`.  `isFinite v`
  becomes `v.isSome`.
* React `useState` setters (`setTuningStatus`, `setDetectedNote`, ...) and
  `useRef` cells are both modelled as direct assignments to one explicit
  session-state record (`TuningState`), mutated once per frame.
* The YIN pitch estimate `findFundamentalFrequency(waveformData, rate)` is a
  pure function of the frame's buffer; the per-frame transition takes its
  result as the parameter `est` (the claims below quantify over it).  Its
  index arithmetic, which claim C10 is about, is embedded separately
  (`yinBufferSize`, `minPeriod`, `maxPeriod`).
-/

/-! ### Constants (source lines 38-63) -/

def CENTS_PRECISION : ℤ := 3

def ALMOST_TUNED_THRESHOLD : ℤ := 8

def ANALYSIS_SIZE : ℕ := 16384

def VOLUME_THRESHOLD : ℚ := -52

def STABILITY_THRESHOLD : ℤ := 5

def MIN_DETECT_FREQ : ℚ := 70

def MAX_DETECT_FREQ : ℚ := 350

def MOVING_AVERAGE_WINDOW : ℤ := 500

def MOVING_AVERAGE_MAX_READINGS : ℕ := 10

def ATTACK_IGNORE_TIME : ℤ := 120

def ATTACK_VOLUME_THRESHOLD : ℚ := -35

/-- The six reference pitches, in source (insertion) order:
E2 82.41, A2 110.00, D3 146.83, G3 196.00, B3 246.94, E4 329.63. -/
def GUITAR_STRINGS : List (String × ℚ) :=
  [("E2", 8241/100), ("A2", 110), ("D3", 14683/100),
   ("G3", 196), ("B3", 24694/100), ("E4", 32963/100)]

/-- `type TuningStatus` (source line 20): seven string literals. -/
inductive TuningStatus where
  | waiting
  | flat
  | sharp
  | tuned
  | veryFlat
  | verySharp
  | almostTuned
deriving DecidableEq, Fintype

/-- `interface FrequencyReading` (source lines 29-32). -/
structure FrequencyReading where
  frequency : ℚ
  timestamp : ℤ
deriving DecidableEq

/-! ### Pure helpers -/

/-- `freqToCents` (source lines 72-75):
`if (freq <= 0 || targetFreq <= 0) return 0; return Math.round(1200 * Math.log2(freq / targetFreq))`.
`Math.round` rounds half-up toward `+∞`, which is Mathlib's `round`. -/
noncomputable def freqToCents (freq targetFreq : ℚ) : ℤ :=
  if freq ≤ 0 ∨ targetFreq ≤ 0 then 0
  else round (1200 * Real.logb 2 ((freq : ℝ) / (targetFreq : ℝ)))

/-- Rational key order-equivalent to the cents distance
`|1200 * Math.log2 (f / r)|` used by `findClosestString` (source line 86):
for positive `f`, `r`, `r'` one has
`|1200·log2(f/r)| ≤ |1200·log2(f/r')| ↔ dKey f r ≤ dKey f r'`
(proved below as `abs_cents_le_abs_cents_iff`), because
`|log2 x| = log2 (max x x⁻¹)` and `log2` is strictly monotone on positives. -/
def dKey (f r : ℚ) : ℚ := max (f / r) (r / f)

/-- One step of the `forEach` minimum-tracking loop of `findClosestString`
(source lines 84-92): the first entry always replaces the initial
`minDifference = Infinity`; afterwards an entry wins only on a strictly
smaller cents distance. -/
def stepClosest (f : ℚ) (acc : Option (String × ℚ)) (p : String × ℚ) :
    Option (String × ℚ) :=
  match acc with
  | none => some p
  | some q => if dKey f p.2 < dKey f q.2 then some p else some q

/-- `findClosestString` (source lines 78-100).  The final acceptance test
`minDifference < 100` is rendered as `(dKey f q.2)^12 < 2`, which is
equivalent for positive arguments since
`|1200·log2(f/r)| < 100 ↔ log2 (dKey f r) < 1/12 ↔ (dKey f r)^12 < 2`
(proved below as `abs_cents_lt_100_iff`). -/
def findClosestString (f : ℚ) : Option (String × ℚ) :=
  if f ≤ 0 then none
  else
    match GUITAR_STRINGS.foldl (stepClosest f) none with
    | none => none
    | some q => if (dKey f q.2) ^ 12 < 2 then some q else none

/-- `getAdjustedVolumeThreshold` (source lines 326-341).  Note that for
`f > 250` the source returns `VOLUME_THRESHOLD + 6` (and `+ 3` for
`f > 150`), i.e. a numerically *higher* threshold. -/
def getAdjustedVolumeThreshold (detectedFrequency : ℚ) : ℚ :=
  if detectedFrequency ≤ 0 then VOLUME_THRESHOLD
  else if detectedFrequency > 250 then VOLUME_THRESHOLD + 6
  else if detectedFrequency > 150 then VOLUME_THRESHOLD + 3
  else VOLUME_THRESHOLD

/-- The classification chain of `analyzeAudio` (source lines 596-604).
The source leaves the previous status in place when no branch fires (which
cannot happen for an integer cents value, as proved in claim C6), hence the
`prev` argument. -/
def classifyCents (prev : TuningStatus) (c : ℤ) : TuningStatus :=
  if |c| ≤ CENTS_PRECISION then .tuned
  else if |c| ≤ ALMOST_TUNED_THRESHOLD then .almostTuned
  else if c < -ALMOST_TUNED_THRESHOLD then (if c < -25 then .veryFlat else .flat)
  else if c > ALMOST_TUNED_THRESHOLD then (if c > 25 then .verySharp else .sharp)
  else prev

/-- The accuracy computation of `analyzeAudio` (source lines 590-592):
`newAccuracy = 100 - absCents * 2` clamped by `Math.max(0, Math.min(100, _))`. -/
def accuracyOf (c : ℤ) : ℤ := max 0 (min 100 (100 - |c| * 2))

/-- `currentVolume - lastVolumeRef.current > 8` (source line 314), with
`none` standing for `-Infinity`: a finite volume minus `-∞` is `+∞ > 8`;
if the current volume is `-∞` the difference is `-∞` (or `NaN` when both
are `-∞`), never `> 8`. -/
def volumeJumpGt8 (cur last : Option ℚ) : Bool :=
  match cur, last with
  | some c, some l => decide (c - l > 8)
  | some _, none => true
  | none, _ => false

/-- `currentVolume > ATTACK_VOLUME_THRESHOLD` (source line 314);
`-∞ > -35` is false. -/
def attackVolumeOk (cur : Option ℚ) : Bool :=
  match cur with
  | some c => decide (c > ATTACK_VOLUME_THRESHOLD)
  | none => false

/-- Result of one `detectAttack` call: the returned boolean plus the refs it
mutates. -/
structure AttackResult where
  isNew : Bool
  lastVolume : Option ℚ
  attackTime : ℤ
  noteChangeTime : ℤ
  history : List FrequencyReading
deriving DecidableEq

/-- `detectAttack` (source lines 303-323): always updates `lastVolumeRef`;
declares a new attack when the jump exceeds 8 dB, the volume exceeds the
attack threshold, and more than 300 ms have elapsed since the previous
attack, in which case it records the attack and note-change timestamps and
clears the frequency history. -/
def detectAttack (cur lastVolume : Option ℚ) (attackTime noteChangeTime : ℤ)
    (history : List FrequencyReading) (now : ℤ) : AttackResult :=
  if volumeJumpGt8 cur lastVolume = true ∧ attackVolumeOk cur = true ∧
      now - attackTime > 300 then
    ⟨true, cur, now, now, []⟩
  else
    ⟨false, cur, attackTime, noteChangeTime, history⟩

/-- Weight of one history entry inside `calculateMovingAverage`
(source lines 287-293): the average of the recency factor
`1 - (now - timestamp) / MOVING_AVERAGE_WINDOW` and the rank factor
`(index + 1) / count`. -/
def maWeight (now : ℤ) (n : ℕ) (i : ℕ) (r : FrequencyReading) : ℚ :=
  ((1 - ((now : ℚ) - (r.timestamp : ℚ)) / 500) + ((i : ℚ) + 1) / (n : ℚ)) / 2

/-- `calculateMovingAverage` (source lines 260-300): push the new reading,
drop entries older than the window, keep only the most recent
`MOVING_AVERAGE_MAX_READINGS`, then return the weighted mean (the raw value
passes through with fewer than two entries or a non-positive total weight).
Returns the updated history together with the smoothed value. -/
def calculateMovingAverage (history : List FrequencyReading) (newFreq : ℚ)
    (now : ℤ) : List FrequencyReading × ℚ :=
  let h1 := history ++ [⟨newFreq, now⟩]
  let h2 := h1.filter (fun r => decide (now - r.timestamp ≤ MOVING_AVERAGE_WINDOW))
  let h3 := if h2.length > MOVING_AVERAGE_MAX_READINGS then
      h2.drop (h2.length - MOVING_AVERAGE_MAX_READINGS) else h2
  if h3.length < 2 then (h3, newFreq)
  else
    let n := h3.length
    let totalWeight := (h3.enum.map (fun p => maWeight now n p.1 p.2)).sum
    let weightedSum := (h3.enum.map (fun p => p.2.frequency * maWeight now n p.1 p.2)).sum
    (h3, if totalWeight > 0 then weightedSum / totalWeight else newFreq)

/-- Decidable rendering of the source expression
`Math.abs(1200 * Math.log2 (f / g)) > 50` (source line 560) for positive
arguments: since `x ↦ x^24` is strictly monotone on positives and
`2^(50/1200) = 2^(1/24)`, the test is equivalent to
`f^24 > 2*g^24 ∨ g^24 > 2*f^24` (proved below as `centsJumpGt50_iff`). -/
def centsJumpGt50 (f g : ℚ) : Bool :=
  decide (f ^ 24 > 2 * g ^ 24) || decide (g ^ 24 > 2 * f ^ 24)

/-- Result of the stability / hysteresis block. -/
structure HystResult where
  lastStable : ℚ
  counter : ℤ
  history : List FrequencyReading
  noteChangeTime : ℤ
deriving DecidableEq

/-- The stability logic of `analyzeAudio` (source lines 547-568).
`tolerance = Math.max(0.5, lastStableFreqRef.current * 0.015)`.
Note that in the second branch the source assigns
`lastStableFreqRef.current = smoothedFreq` *before* testing
`lastStableFreqRef.current > 0 && |1200·log2(smoothedFreq / lastStableFreqRef.current)| > 50`,
so that test compares `smoothedFreq` against itself; the embedding keeps
this order (`newLast := smoothed` before the test). -/
def hysteresisUpdate (lastStable : ℚ) (counter : ℤ)
    (history : List FrequencyReading) (noteChangeTime : ℤ)
    (smoothed : ℚ) (now : ℤ) : HystResult :=
  let tolerance := max (1/2) (lastStable * (15/1000))
  if |smoothed - lastStable| < tolerance then
    ⟨lastStable, counter + 1, history, noteChangeTime⟩
  else if lastStable = 0 ∨ |smoothed - lastStable| > tolerance * 3 then
    let newLast := smoothed
    if 0 < newLast ∧ centsJumpGt50 smoothed newLast = true then
      ⟨newLast, 0, [], now⟩
    else
      ⟨newLast, 0, history, noteChangeTime⟩
  else
    ⟨(9/10) * lastStable + (1/10) * smoothed, max 0 (counter - 1),
     history, noteChangeTime⟩

/-! ### Session state and the per-frame transition -/

/-- The session state: the React states and refs that `analyzeAudio`
reads or writes (source lines 205-232). -/
structure TuningState where
  isAttack : Bool
  detectedNote : Option String
  detectedFreq : ℚ
  tuningStatus : TuningStatus
  cents : ℤ
  volume : Option ℚ
  accuracy : ℤ
  lastStableFreq : ℚ
  stableCounter : ℤ
  attackTime : ℤ
  history : List FrequencyReading
  lastVolume : Option ℚ
  noteChangeTime : ℤ

/-- One invocation of `analyzeAudio` (source lines 494-643), parametrised
over the cents function (instantiated with `freqToCents` in
`processFrame`; the parameter exists because `freqToCents` is a
noncomputable real-number computation).  Arguments: the prior state, the
frame timestamp, the meter value (`none` = `-∞`), whether `waveformData`
is a valid non-empty buffer, and the `findFundamentalFrequency` result for
this frame.  The second component of the result records whether this frame
took the committed-with-matching-string path (source lines 573-604). -/
def processFrameAux (centsOf : ℚ → ℚ → ℤ) (st : TuningState) (now : ℤ)
    (cur : Option ℚ) (waveformOk : Bool) (est : ℚ) : TuningState × Bool :=
  -- setVolume(currentVolume); detectAttack side effects
  let a := detectAttack cur st.lastVolume st.attackTime st.noteChangeTime
      st.history now
  let st1 : TuningState :=
    { st with
      volume := cur
      lastVolume := a.lastVolume
      attackTime := a.attackTime
      noteChangeTime := a.noteChangeTime
      history := a.history }
  -- attack bookkeeping (source lines 512-520)
  let st2 : TuningState :=
    if a.isNew then
      { st1 with isAttack := true, stableCounter := 0, lastStableFreq := 0 }
    else if st1.isAttack ∧ now - st1.attackTime > ATTACK_IGNORE_TIME then
      { st1 with isAttack := false }
    else st1
  -- invalid waveform: early return (source lines 523-526)
  if waveformOk = false then (st2, false)
  else
    let adaptiveThreshold := getAdjustedVolumeThreshold st2.lastStableFreq
    let isAttackPhaseOver := decide (now - st2.attackTime > ATTACK_IGNORE_TIME)
    -- the gate (source lines 536-537)
    match cur with
    | some c =>
      if c > adaptiveThreshold ∧ (st2.isAttack = false ∨ isAttackPhaseOver = true) then
        if est > 0 then
          let ma := calculateMovingAverage st2.history est now
          let smoothed := ma.2
          let hr := hysteresisUpdate st2.lastStableFreq st2.stableCounter
              ma.1 st2.noteChangeTime smoothed now
          let st3 : TuningState :=
            { st2 with
              lastStableFreq := hr.lastStable
              stableCounter := hr.counter
              history := hr.history
              noteChangeTime := hr.noteChangeTime }
          -- commit test (source lines 573-574)
          if hr.counter ≥ STABILITY_THRESHOLD ∧
              now - st3.noteChangeTime > ATTACK_IGNORE_TIME then
            let st4 : TuningState := { st3 with detectedFreq := smoothed }
            match findClosestString smoothed with
            | some q =>
              let c := centsOf smoothed q.2
              ({ st4 with
                 detectedNote := some q.1
                 cents := c
                 accuracy := accuracyOf c
                 tuningStatus := classifyCents st4.tuningStatus c }, true)
            | none =>
              ({ st4 with
                 detectedNote := none
                 tuningStatus := .waiting
                 cents := 0
                 accuracy := 0 }, false)
          else (st3, false)
        else
          -- no pitch (source lines 613-621)
          let st3 : TuningState :=
            if st2.stableCounter < STABILITY_THRESHOLD then
              { st2 with tuningStatus := .waiting, cents := 0, accuracy := 0 }
            else st2
          ({ st3 with stableCounter := max 0 (st3.stableCounter - 1) }, false)
      else
        -- gate failed (source lines 622-632)
        let st3 : TuningState :=
          if st2.stableCounter < STABILITY_THRESHOLD then
            { st2 with tuningStatus := .waiting, cents := 0, accuracy := 0 }
          else st2
        ({ st3 with stableCounter := max 0 (st3.stableCounter - 1) }, false)
    | none =>
      -- `isFinite(currentVolume)` fails: same gate-failure branch
      let st3 : TuningState :=
        if st2.stableCounter < STABILITY_THRESHOLD then
          { st2 with tuningStatus := .waiting, cents := 0, accuracy := 0 }
        else st2
      ({ st3 with stableCounter := max 0 (st3.stableCounter - 1) }, false)

/-- The per-frame transition with an arbitrary cents function. -/
def processFrameWith (centsOf : ℚ → ℚ → ℤ) (st : TuningState) (now : ℤ)
    (cur : Option ℚ) (waveformOk : Bool) (est : ℚ) : TuningState :=
  (processFrameAux centsOf st now cur waveformOk est).1

/-- The per-frame transition of the engine, with the real cents function. -/
noncomputable def processFrame (st : TuningState) (now : ℤ) (cur : Option ℚ)
    (waveformOk : Bool) (est : ℚ) : TuningState :=
  processFrameWith freqToCents st now cur waveformOk est

/-! ### Index arithmetic of `findFundamentalFrequency` (source lines 106-198) -/

/-- `yinBufferSize = Math.floor(bufferSize / 2)` (source line 111). -/
def yinBufferSize (bufferSize : ℕ) : ℕ := bufferSize / 2

/-- `minPeriod = Math.max(2, Math.floor(sampleRate / MAX_DETECT_FREQ))`
(source line 115). -/
def minPeriod (sampleRate : ℚ) : ℤ := max 2 ⌊sampleRate / MAX_DETECT_FREQ⌋

/-- `maxPeriod = Math.min(yinBufferSize - 1, Math.floor(sampleRate / MIN_DETECT_FREQ))`
(source line 116). -/
def maxPeriod (bufferSize : ℕ) (sampleRate : ℚ) : ℤ :=
  min ((yinBufferSize bufferSize : ℤ) - 1) ⌊sampleRate / MIN_DETECT_FREQ⌋

/-- A session state with a committed note, used as the concrete prior state
for the claims about silence and counter decay. -/
def silenceState : TuningState where
  isAttack := false
  detectedNote := some "E2"
  detectedFreq := 8241/100
  tuningStatus := .tuned
  cents := -9
  volume := some (-30)
  accuracy := 82
  lastStableFreq := 8241/100
  stableCounter := 5
  attackTime := 0
  history := []
  lastVolume := some (-30)
  noteChangeTime := 0

/-- A session state inside the attack-suppression window (`isAttack = true`,
50 ms after the attack timestamp), on a quiet frame. -/
def attackGateState : TuningState where
  isAttack := true
  detectedNote := none
  detectedFreq := 0
  tuningStatus := .waiting
  cents := 0
  volume := some (-60)
  accuracy := 0
  lastStableFreq := 0
  stableCounter := 0
  attackTime := 950
  history := []
  lastVolume := some (-60)
  noteChangeTime := 950

/-! ### Bridge lemmas: the rational branch keys agree with the real cents
expressions of the source -/

lemma abs_logb_two (x : ℝ) (hx : 0 < x) :
    |Real.logb 2 x| = Real.logb 2 (max x x⁻¹) := by
  rcases le_total x x⁻¹ with h | h
  · rw [max_eq_right h]
    have hx1 : x ≤ 1 := by
      nlinarith [inv_pos.mpr hx, mul_le_mul_of_nonneg_left h (le_of_lt hx),
        mul_inv_cancel₀ (ne_of_gt hx)]
    rw [Real.logb_inv, abs_of_nonpos (Real.logb_nonpos one_lt_two (le_of_lt hx) hx1)]
  · rw [max_eq_left h]
    have hx1 : 1 ≤ x := by
      nlinarith [inv_pos.mpr hx, mul_le_mul_of_nonneg_left h (le_of_lt hx),
        mul_inv_cancel₀ (ne_of_gt hx)]
    rw [abs_of_nonneg (Real.logb_nonneg one_lt_two hx1)]

lemma dKey_cast (f r : ℚ) :
    ((dKey f r : ℚ) : ℝ) = max ((f : ℝ) / r) (((f : ℝ) / r))⁻¹ := by
  have h1 : (((f : ℝ)) / r)⁻¹ = (r : ℝ) / f := inv_div _ _
  rw [h1, dKey, Rat.cast_max, Rat.cast_div, Rat.cast_div]

lemma one_le_dKey (f r : ℚ) (hf : 0 < f) (hr : 0 < r) : 1 ≤ dKey f r := by
  rcases le_total f r with h | h
  · exact le_max_of_le_right ((one_le_div hf).2 h)
  · exact le_max_of_le_left ((one_le_div hr).2 h)

/-- The cents distance of the source, `|1200 * Math.log2 (f / r)|`, equals
`1200 * log2` of the rational key `dKey f r`. -/
lemma abs_cents_eq (f r : ℚ) (hf : 0 < f) (hr : 0 < r) :
    |1200 * Real.logb 2 ((f : ℝ) / r)| = 1200 * Real.logb 2 ((dKey f r : ℚ) : ℝ) := by
  have hx : (0 : ℝ) < (f : ℝ) / r := by positivity
  rw [abs_mul, abs_of_nonneg (by norm_num : (0:ℝ) ≤ (1200:ℝ)), abs_logb_two _ hx,
    dKey_cast f r]

/-- Comparing two cents distances is the same as comparing the `dKey`s. -/
lemma abs_cents_le_abs_cents_iff (f r r' : ℚ) (hf : 0 < f) (hr : 0 < r) (hr' : 0 < r') :
    |1200 * Real.logb 2 ((f : ℝ) / r)| ≤ |1200 * Real.logb 2 ((f : ℝ) / r')| ↔
      dKey f r ≤ dKey f r' := by
  rw [abs_cents_eq f r hf hr, abs_cents_eq f r' hf hr']
  have hd : (0 : ℝ) < ((dKey f r : ℚ) : ℝ) := by
    have h := one_le_dKey f r hf hr
    have h' : (1 : ℝ) ≤ ((dKey f r : ℚ) : ℝ) := by exact_mod_cast h
    linarith
  have hd' : (0 : ℝ) < ((dKey f r' : ℚ) : ℝ) := by
    have h := one_le_dKey f r' hf hr'
    have h' : (1 : ℝ) ≤ ((dKey f r' : ℚ) : ℝ) := by exact_mod_cast h
    linarith
  rw [mul_le_mul_left (by norm_num : (0:ℝ) < 1200),
    Real.logb_le_logb one_lt_two hd hd', Rat.cast_le]

/-- The source's acceptance test `minDifference < 100` corresponds to the
rational test `(dKey f r)^12 < 2`. -/
lemma abs_cents_lt_100_iff (f r : ℚ) (hf : 0 < f) (hr : 0 < r) :
    |1200 * Real.logb 2 ((f : ℝ) / r)| < 100 ↔ (dKey f r) ^ 12 < 2 := by
  rw [abs_cents_eq f r hf hr]
  have h1 : (1 : ℝ) ≤ ((dKey f r : ℚ) : ℝ) := by exact_mod_cast one_le_dKey f r hf hr
  have hd : (0 : ℝ) < ((dKey f r : ℚ) : ℝ) := by linarith
  have key : (1200 : ℝ) * Real.logb 2 ((dKey f r : ℚ) : ℝ) < 100 ↔
      Real.logb 2 (((dKey f r : ℚ) : ℝ) ^ 12) < Real.logb 2 2 := by
    rw [Real.logb_pow, Real.logb_self_eq_one one_lt_two]
    push_cast
    constructor <;> intro hh <;> linarith
  rw [key, Real.logb_lt_logb_iff one_lt_two (by positivity) (by norm_num)]
  constructor <;> intro hh
  · exact_mod_cast hh
  · exact_mod_cast hh

/-- The source's cents-jump test `|1200 * log2 (f / g)| > 50` corresponds to
the rational test of `centsJumpGt50`. -/
lemma centsJumpGt50_iff (f g : ℚ) (hf : 0 < f) (hg : 0 < g) :
    centsJumpGt50 f g = true ↔ 50 < |1200 * Real.logb 2 ((f : ℝ) / g)| := by
  rw [abs_cents_eq f g hf hg]
  have h1 : (1 : ℝ) ≤ ((dKey f g : ℚ) : ℝ) := by exact_mod_cast one_le_dKey f g hf hg
  have key : (50 : ℝ) < 1200 * Real.logb 2 ((dKey f g : ℚ) : ℝ) ↔
      Real.logb 2 2 < Real.logb 2 (((dKey f g : ℚ) : ℝ) ^ 24) := by
    rw [Real.logb_pow, Real.logb_self_eq_one one_lt_two]
    push_cast
    constructor <;> intro hh <;> linarith
  rw [key, Real.logb_lt_logb_iff one_lt_two (by norm_num) (by positivity)]
  have hcast : ((2 : ℝ) < ((dKey f g : ℚ) : ℝ) ^ 24) ↔ (2 : ℚ) < (dKey f g) ^ 24 := by
    constructor <;> intro hh <;> exact_mod_cast hh
  rw [hcast]
  have hfg : (0 : ℚ) < f / g := by positivity
  have hgf : (0 : ℚ) < g / f := by positivity
  have hsplit : (2 : ℚ) < (dKey f g) ^ 24 ↔ (f ^ 24 > 2 * g ^ 24 ∨ g ^ 24 > 2 * f ^ 24) := by
    have e1 : (f / g) ^ 24 = f ^ 24 / g ^ 24 := div_pow f g 24
    have e2 : (g / f) ^ 24 = g ^ 24 / f ^ 24 := div_pow g f 24
    have i1 : (2 : ℚ) < (f / g) ^ 24 ↔ 2 * g ^ 24 < f ^ 24 := by
      rw [e1, lt_div_iff₀ (by positivity)]
    have i2 : (2 : ℚ) < (g / f) ^ 24 ↔ 2 * f ^ 24 < g ^ 24 := by
      rw [e2, lt_div_iff₀ (by positivity)]
    rw [dKey]
    rcases le_total (f / g) (g / f) with h | h
    · rw [max_eq_right h]
      have hle : (f / g) ^ 24 ≤ (g / f) ^ 24 := pow_le_pow_left₀ (le_of_lt hfg) h 24
      constructor
      · intro hh; exact Or.inr (i2.mp hh)
      · rintro (hh | hh)
        · exact lt_of_lt_of_le (i1.mpr hh) hle
        · exact i2.mpr hh
    · rw [max_eq_left h]
      have hle : (g / f) ^ 24 ≤ (f / g) ^ 24 := pow_le_pow_left₀ (le_of_lt hgf) h 24
      constructor
      · intro hh; exact Or.inl (i1.mp hh)
      · rintro (hh | hh)
        · exact i1.mpr hh
        · exact lt_of_lt_of_le (i2.mpr hh) hle
  rw [hsplit, centsJumpGt50]
  simp [decide_eq_true_eq]

/-! ### The minimum-tracking fold of `findClosestString` -/

lemma guitarStrings_pos : ∀ p ∈ GUITAR_STRINGS, (0 : ℚ) < p.2 := by
  intro p hp
  fin_cases hp <;> norm_num

lemma foldl_stepClosest_some (f : ℚ) (l : List (String × ℚ)) (q0 : String × ℚ) :
    ∃ q, l.foldl (stepClosest f) (some q0) = some q ∧ (q ∈ l ∨ q = q0) ∧
      dKey f q.2 ≤ dKey f q0.2 ∧ ∀ p ∈ l, dKey f q.2 ≤ dKey f p.2 := by
  induction l generalizing q0 with
  | nil => exact ⟨q0, rfl, Or.inr rfl, le_refl _, by simp⟩
  | cons p l ih =>
    by_cases h : dKey f p.2 < dKey f q0.2
    · obtain ⟨q, hq, hmem, hle, hall⟩ := ih p
      refine ⟨q, ?_, ?_, ?_, ?_⟩
      · simpa [List.foldl_cons, stepClosest, h] using hq
      · rcases hmem with hm | hm
        · exact Or.inl (List.mem_cons_of_mem _ hm)
        · exact Or.inl (hm ▸ List.mem_cons_self _ _)
      · exact le_trans hle (le_of_lt h)
      · intro p' hp'
        rcases List.mem_cons.mp hp' with hh | hh
        · exact hh ▸ hle
        · exact hall p' hh
    · obtain ⟨q, hq, hmem, hle, hall⟩ := ih q0
      refine ⟨q, ?_, ?_, hle, ?_⟩
      · simpa [List.foldl_cons, stepClosest, h] using hq
      · rcases hmem with hm | hm
        · exact Or.inl (List.mem_cons_of_mem _ hm)
        · exact Or.inr hm
      · intro p' hp'
        rcases List.mem_cons.mp hp' with hh | hh
        · exact hh ▸ le_trans hle (le_of_not_lt h)
        · exact hall p' hh

lemma findClosest_core (f : ℚ) (hf : 0 < f) :
    ∃ q, GUITAR_STRINGS.foldl (stepClosest f) none = some q ∧
      q ∈ GUITAR_STRINGS ∧ ∀ p ∈ GUITAR_STRINGS, dKey f q.2 ≤ dKey f p.2 := by
  obtain ⟨q, hq, hmem, hle, hall⟩ := foldl_stepClosest_some f
    [("A2", 110), ("D3", 14683/100), ("G3", 196), ("B3", 24694/100), ("E4", 32963/100)]
    ("E2", (8241 : ℚ)/100)
  refine ⟨q, ?_, ?_, ?_⟩
  · show ((("E2", (8241:ℚ)/100)) ::
      [("A2", 110), ("D3", 14683/100), ("G3", 196), ("B3", 24694/100), ("E4", 32963/100)]).foldl
        (stepClosest f) none = some q
    rw [List.foldl_cons]
    exact hq
  · rcases hmem with hm | hm
    · exact List.mem_cons_of_mem _ hm
    · rw [hm]; exact List.mem_cons_self _ _
  · intro p hp
    rcases List.mem_cons.mp hp with hh | hh
    · exact hh ▸ hle
    · exact hall p hh

/-! ### Claim theorems -/

/-- C7: for every frequency `f > 0` the Note Mapper (`findClosestString`)
selects a reference pitch minimising `|1200·log2(f/ref)|` over the six fixed
references and returns a match if and only if that minimum is strictly less
than 100 cents; at exactly 100 cents, and for `f ≤ 0`, the result is `none`
(an absent note, not a fault — the embedding is a total function). -/
theorem C7_closest_string :
    (∀ f : ℚ, f ≤ 0 → findClosestString f = none) ∧
    (∀ f : ℚ, 0 < f →
      (∀ q, findClosestString f = some q →
        q ∈ GUITAR_STRINGS ∧
        (∀ p ∈ GUITAR_STRINGS,
          |1200 * Real.logb 2 ((f : ℝ) / (q.2 : ℝ))| ≤
            |1200 * Real.logb 2 ((f : ℝ) / (p.2 : ℝ))|) ∧
        |1200 * Real.logb 2 ((f : ℝ) / (q.2 : ℝ))| < 100) ∧
      ((findClosestString f).isSome = true ↔
        ∃ p ∈ GUITAR_STRINGS, |1200 * Real.logb 2 ((f : ℝ) / (p.2 : ℝ))| < 100)) := by
  constructor
  · intro f hf
    simp [findClosestString, hf]
  · intro f hf
    obtain ⟨q', hq', hmem', hmin'⟩ := findClosest_core f hf
    have hq'pos : (0 : ℚ) < q'.2 := guitarStrings_pos q' hmem'
    have hfc : findClosestString f =
        if (dKey f q'.2) ^ 12 < 2 then some q' else none := by
      rw [findClosestString, if_neg (not_le.mpr hf), hq']
    constructor
    · intro q hq
      rw [hfc] at hq
      by_cases hacc : (dKey f q'.2) ^ 12 < 2
      · rw [if_pos hacc] at hq
        obtain rfl : q' = q := by injection hq
        refine ⟨hmem', ?_, ?_⟩
        · intro p hp
          exact (abs_cents_le_abs_cents_iff f q'.2 p.2 hf hq'pos
            (guitarStrings_pos p hp)).mpr (hmin' p hp)
        · exact (abs_cents_lt_100_iff f q'.2 hf hq'pos).mpr hacc
      · rw [if_neg hacc] at hq
        exact absurd hq (by simp)
    · constructor
      · intro hsome
        obtain ⟨q, hq⟩ := Option.isSome_iff_exists.mp hsome
        rw [hfc] at hq
        by_cases hacc : (dKey f q'.2) ^ 12 < 2
        · exact ⟨q', hmem', (abs_cents_lt_100_iff f q'.2 hf hq'pos).mpr hacc⟩
        · rw [if_neg hacc] at hq
          exact absurd hq (by simp)
      · rintro ⟨p, hp, hdist⟩
        have hppos := guitarStrings_pos p hp
        have hkey : (dKey f p.2) ^ 12 < 2 := (abs_cents_lt_100_iff f p.2 hf hppos).mp hdist
        have hq'key : (dKey f q'.2) ^ 12 < 2 := by
          have h1 : dKey f q'.2 ≤ dKey f p.2 := hmin' p hp
          have h0 : (0 : ℚ) ≤ dKey f q'.2 :=
            le_trans zero_le_one (one_le_dKey f q'.2 hf hq'pos)
          calc (dKey f q'.2) ^ 12 ≤ (dKey f p.2) ^ 12 := pow_le_pow_left₀ h0 h1 12
            _ < 2 := hkey
        rw [hfc, if_pos hq'key]
        rfl

/-- Witness for C7 at concrete inputs: a non-positive frequency yields no
note, and at 82 Hz the minimiser (E2) is within 100 cents. -/
theorem C7_witness :
    findClosestString (-1) = none ∧
    |1200 * Real.logb 2 ((82 : ℝ) / ((((8241 : ℚ)/100) : ℚ) : ℝ))| < 100 :=
  ⟨C7_closest_string.1 (-1) (by norm_num),
    ((C7_closest_string.2 82 (by norm_num)).1 ("E2", 8241/100)
      (by norm_num [findClosestString, GUITAR_STRINGS, stepClosest, dKey])).2.2⟩

/-! ### The cents value of a steady 82 Hz tone -/

lemma pow_bound_low : (8241 : ℕ) ^ 2400 ≤ 2 ^ 19 * 8200 ^ 2400 := by norm_num

lemma pow_bound_high : (2 : ℕ) ^ 17 * 8200 ^ 2400 < 8241 ^ 2400 := by norm_num

/-- `Math.round(1200 * Math.log2(82 / 82.41)) = -9`, via the rational
bounds `2^(-19) ≤ (8200/8241)^2400 < 2^(-17)`. -/
lemma freqToCents_82 : freqToCents 82 (8241/100) = -9 := by
  rw [freqToCents, if_neg (by norm_num)]
  have hcast : ((82 : ℚ) : ℝ) / (((8241 : ℚ)/100 : ℚ) : ℝ) = (8200 : ℝ) / 8241 := by
    push_cast
    norm_num
  rw [hcast]
  have hpow : ((8200 : ℝ) / 8241) ^ 2400 = (8200 : ℝ) ^ 2400 / 8241 ^ 2400 :=
    div_pow _ _ _
  have hb1 : ((2 : ℝ) ^ 19)⁻¹ ≤ ((8200 : ℝ) / 8241) ^ 2400 := by
    rw [hpow, inv_eq_one_div, div_le_div_iff₀ (by positivity) (by positivity)]
    have h := pow_bound_low
    have h' : ((8241 : ℝ)) ^ 2400 ≤ 2 ^ 19 * 8200 ^ 2400 := by exact_mod_cast h
    linarith
  have hb2 : ((8200 : ℝ) / 8241) ^ 2400 < ((2 : ℝ) ^ 17)⁻¹ := by
    rw [hpow, inv_eq_one_div, div_lt_div_iff₀ (by positivity) (by positivity)]
    have h := pow_bound_high
    have h' : (2 : ℝ) ^ 17 * 8200 ^ 2400 < 8241 ^ 2400 := by exact_mod_cast h
    linarith
  set x := Real.logb 2 ((8200 : ℝ) / 8241) with hx
  have hlog1 : (-19 : ℝ) ≤ 2400 * x := by
    have h := (Real.logb_le_logb one_lt_two (by positivity) (by positivity)).mpr hb1
    rw [Real.logb_inv, Real.logb_pow, Real.logb_pow,
      Real.logb_self_eq_one one_lt_two] at h
    push_cast at h
    linarith
  have hlog2 : 2400 * x < (-17 : ℝ) := by
    have h := (Real.logb_lt_logb_iff one_lt_two (by positivity) (by positivity)).mpr hb2
    rw [Real.logb_inv, Real.logb_pow, Real.logb_pow,
      Real.logb_self_eq_one one_lt_two] at h
    push_cast at h
    linarith
  rw [round_eq, Int.floor_eq_iff]
  constructor
  · push_cast
    linarith
  · push_cast
    linarith

lemma classify_tuned_iff (prev : TuningStatus) (c : ℤ) :
    classifyCents prev c = .tuned ↔ |c| ≤ 3 := by
  unfold classifyCents CENTS_PRECISION ALMOST_TUNED_THRESHOLD
  rcases abs_cases c with ⟨he, hc⟩ | ⟨he, hc⟩ <;> rw [he] <;>
    split_ifs <;> simp_all <;> omega

lemma classify_almost_iff (prev : TuningStatus) (c : ℤ) :
    classifyCents prev c = .almostTuned ↔ (3 < |c| ∧ |c| ≤ 8) := by
  unfold classifyCents CENTS_PRECISION ALMOST_TUNED_THRESHOLD
  rcases abs_cases c with ⟨he, hc⟩ | ⟨he, hc⟩ <;> rw [he] <;>
    split_ifs <;> simp_all <;> omega

lemma classify_flat_iff (prev : TuningStatus) (c : ℤ) :
    classifyCents prev c = .flat ↔ (-25 ≤ c ∧ c < -8) := by
  unfold classifyCents CENTS_PRECISION ALMOST_TUNED_THRESHOLD
  rcases abs_cases c with ⟨he, hc⟩ | ⟨he, hc⟩ <;> rw [he] <;>
    split_ifs <;> simp_all <;> omega

lemma classify_veryFlat_iff (prev : TuningStatus) (c : ℤ) :
    classifyCents prev c = .veryFlat ↔ c < -25 := by
  unfold classifyCents CENTS_PRECISION ALMOST_TUNED_THRESHOLD
  rcases abs_cases c with ⟨he, hc⟩ | ⟨he, hc⟩ <;> rw [he] <;>
    split_ifs <;> simp_all <;> omega

lemma classify_sharp_iff (prev : TuningStatus) (c : ℤ) :
    classifyCents prev c = .sharp ↔ (8 < c ∧ c ≤ 25) := by
  unfold classifyCents CENTS_PRECISION ALMOST_TUNED_THRESHOLD
  rcases abs_cases c with ⟨he, hc⟩ | ⟨he, hc⟩ <;> rw [he] <;>
    split_ifs <;> simp_all <;> omega

lemma classify_verySharp_iff (prev : TuningStatus) (c : ℤ) :
    classifyCents prev c = .verySharp ↔ 25 < c := by
  unfold classifyCents CENTS_PRECISION ALMOST_TUNED_THRESHOLD
  rcases abs_cases c with ⟨he, hc⟩ | ⟨he, hc⟩ <;> rw [he] <;>
    split_ifs <;> simp_all <;> omega

/-- C6: the Tuning Classifier's status as a function of the signed cents
offset `c` — `tuned` iff `|c| ≤ 3`, `almost-tuned` iff `3 < |c| ≤ 8`,
`flat` iff `−25 ≤ c < −8`, `very-flat` iff `c < −25`, `sharp` iff
`8 < c ≤ 25`, `very-sharp` iff `c > 25`; the accuracy is
`clamp(100 − 2·|c|, 0, 100)`; and a steady committed 82.0 Hz tone maps to
E2 with `c = −9` and status `flat`. -/
theorem C6_classifier :
    (∀ (prev : TuningStatus) (c : ℤ), classifyCents prev c = .tuned ↔ |c| ≤ 3) ∧
    (∀ (prev : TuningStatus) (c : ℤ),
      classifyCents prev c = .almostTuned ↔ (3 < |c| ∧ |c| ≤ 8)) ∧
    (∀ (prev : TuningStatus) (c : ℤ),
      classifyCents prev c = .flat ↔ (-25 ≤ c ∧ c < -8)) ∧
    (∀ (prev : TuningStatus) (c : ℤ), classifyCents prev c = .veryFlat ↔ c < -25) ∧
    (∀ (prev : TuningStatus) (c : ℤ),
      classifyCents prev c = .sharp ↔ (8 < c ∧ c ≤ 25)) ∧
    (∀ (prev : TuningStatus) (c : ℤ), classifyCents prev c = .verySharp ↔ 25 < c) ∧
    (∀ c : ℤ, 0 ≤ accuracyOf c ∧ accuracyOf c ≤ 100 ∧
      (|c| ≤ 50 → accuracyOf c = 100 - 2 * |c|) ∧ (50 ≤ |c| → accuracyOf c = 0)) ∧
    (freqToCents 82 (8241/100) = -9 ∧
      findClosestString 82 = some ("E2", 8241/100) ∧
      classifyCents .waiting (-9) = .flat) := by
  refine ⟨classify_tuned_iff, classify_almost_iff, classify_flat_iff,
    classify_veryFlat_iff, classify_sharp_iff, classify_verySharp_iff,
    ?_, freqToCents_82, ?_, ?_⟩
  · intro c
    unfold accuracyOf
    simp only [Int.abs_eq_natAbs]
    omega
  · norm_num [findClosestString, GUITAR_STRINGS, stepClosest, dKey]
  · norm_num [classifyCents, CENTS_PRECISION, ALMOST_TUNED_THRESHOLD]

/-- Witness for C6: the classifier and accuracy facts applied at `c = -9`. -/
theorem C6_witness :
    classifyCents TuningStatus.waiting (-9) = TuningStatus.flat ∧
    accuracyOf (-9) = 100 - 2 * |(-9 : ℤ)| := by
  obtain ⟨h1, h2, h3, h4, h5, h6, h7, h8⟩ := C6_classifier
  exact ⟨(h3 .waiting (-9)).mpr (by norm_num), (h7 (-9)).2.2.1 (by norm_num)⟩

/-- C1: what the Adaptive Gate threshold actually computes.  For a last
stable frequency above 250 Hz the source returns `VOLUME_THRESHOLD + 6`
(= −46 dB, a numerically higher and therefore stricter threshold), not the
`base − 6 = −58 dB` that the claim (and the source's own comments, which
call the high-frequency setting «plus sensible» with «le seuil est bas»)
describes. -/
theorem C1_adaptive_threshold :
    getAdjustedVolumeThreshold 300 = VOLUME_THRESHOLD + 6 ∧
    getAdjustedVolumeThreshold 300 = -46 ∧
    getAdjustedVolumeThreshold 200 = -49 ∧
    getAdjustedVolumeThreshold 100 = -52 ∧
    getAdjustedVolumeThreshold 0 = VOLUME_THRESHOLD ∧
    getAdjustedVolumeThreshold 300 ≠ VOLUME_THRESHOLD - 6 := by
  norm_num [getAdjustedVolumeThreshold, VOLUME_THRESHOLD]

/-- C8: once an attack is registered at `t0`, any frame at `t` with
`t − t0 ≤ 300` ms reports no new attack and leaves the attack timestamp,
the note-change timestamp and the history untouched, whatever the loudness
jump. -/
theorem C8_debounce (cur lastVol : Option ℚ) (t0 nct : ℤ)
    (hist : List FrequencyReading) (t : ℤ) (h : t - t0 ≤ 300) :
    (detectAttack cur lastVol t0 nct hist t).isNew = false ∧
    (detectAttack cur lastVol t0 nct hist t).attackTime = t0 ∧
    (detectAttack cur lastVol t0 nct hist t).noteChangeTime = nct ∧
    (detectAttack cur lastVol t0 nct hist t).history = hist := by
  unfold detectAttack
  rw [if_neg]
  · exact ⟨rfl, rfl, rfl, rfl⟩
  · rintro ⟨-, -, h3⟩
    omega

/-- Witness for C8: a +100 dB jump above the attack volume threshold,
100 ms after the previous attack, is ignored. -/
theorem C8_witness :
    (1100 : ℤ) - 1000 ≤ 300 ∧
    (detectAttack (some 0) (some (-100)) 1000 0 [] 1100).isNew = false ∧
    (detectAttack (some 0) (some (-100)) 1000 0 [] 1100).attackTime = 1000 :=
  ⟨by norm_num,
   (C8_debounce (some 0) (some (-100)) 1000 0 [] 1100 (by norm_num)).1,
   (C8_debounce (some 0) (some (-100)) 1000 0 [] 1100 (by norm_num)).2.1⟩

lemma centsJumpGt50_self (s : ℚ) : centsJumpGt50 s s = false := by
  have h0 : (0 : ℚ) ≤ s ^ 24 := by positivity
  unfold centsJumpGt50
  simp only [Bool.or_self, decide_eq_false_iff_not, not_lt]
  linarith

/-- C5: the hysteresis policy of the Stability Tracker, with
`tolerance = max(0.5, lastStableFrequency × 0.015)`: a deviation below the
tolerance increments `stableCounter`; `lastStable = 0` or a deviation above
`3 × tolerance` installs `s` as the new candidate and resets the counter;
otherwise the frequency is blended 90/10 and the counter decremented by one,
floored at 0. -/
theorem C5_hysteresis (lastStable : ℚ) (counter : ℤ)
    (hist : List FrequencyReading) (nct : ℤ) (s : ℚ) (now : ℤ) :
    (|s - lastStable| < max (1/2) (lastStable * (15/1000)) →
      hysteresisUpdate lastStable counter hist nct s now =
        ⟨lastStable, counter + 1, hist, nct⟩) ∧
    (¬ |s - lastStable| < max (1/2) (lastStable * (15/1000)) →
      (lastStable = 0 ∨ |s - lastStable| > max (1/2) (lastStable * (15/1000)) * 3) →
      (hysteresisUpdate lastStable counter hist nct s now).lastStable = s ∧
      (hysteresisUpdate lastStable counter hist nct s now).counter = 0) ∧
    (¬ |s - lastStable| < max (1/2) (lastStable * (15/1000)) →
      ¬ (lastStable = 0 ∨ |s - lastStable| > max (1/2) (lastStable * (15/1000)) * 3) →
      (hysteresisUpdate lastStable counter hist nct s now).lastStable =
        (9/10) * lastStable + (1/10) * s ∧
      (hysteresisUpdate lastStable counter hist nct s now).counter =
        max 0 (counter - 1)) := by
  refine ⟨?_, ?_, ?_⟩
  · intro h1
    unfold hysteresisUpdate
    rw [if_pos h1]
  · intro h1 h2
    unfold hysteresisUpdate
    rw [if_neg h1, if_pos h2]
    dsimp only
    split_ifs <;> exact ⟨rfl, rfl⟩
  · intro h1 h2
    unfold hysteresisUpdate
    rw [if_neg h1, if_neg h2]
    exact ⟨rfl, rfl⟩

/-- Witness for C5: at `lastStable = 110`, `s = 110.1` the deviation is
below the tolerance and the counter increments from 2 to 3. -/
theorem C5_witness :
    |(1101/10 : ℚ) - 110| < max (1/2) ((110 : ℚ) * (15/1000)) ∧
    hysteresisUpdate 110 2 [] 0 (1101/10) 50 = ⟨110, 3, [], 0⟩ :=
  ⟨by norm_num [abs_lt], (C5_hysteresis 110 2 [] 0 (1101/10) 50).1 (by norm_num [abs_lt])⟩

/-- C3: the "new note" sub-branch is dead code.  The source overwrites
`lastStableFreqRef.current` with `smoothedFreq` *before* computing the
cents jump, so the computed jump is always `0` cents and the history clear
and note-change-timestamp update never execute — on every input the
hysteresis step preserves the history and the note-change timestamp.  The
second conjunct exhibits a concrete failing input for the claim:
`lastStable = 100`, `s = 200` deviates by more than `3 × tolerance` and the
jump from the previous `lastStable` is `1200 > 50` cents, yet the history
(one entry) and the timestamp survive unchanged. -/
theorem C3_new_note_branch :
    (∀ (lastStable : ℚ) (counter : ℤ) (hist : List FrequencyReading)
        (nct : ℤ) (s : ℚ) (now : ℤ),
      (hysteresisUpdate lastStable counter hist nct s now).history = hist ∧
      (hysteresisUpdate lastStable counter hist nct s now).noteChangeTime = nct) ∧
    (|(200 : ℚ) - 100| > max (1/2) ((100 : ℚ) * (15/1000)) * 3 ∧
      50 < |1200 * Real.logb 2 ((200 : ℝ) / 100)| ∧
      hysteresisUpdate 100 3 [⟨100, 900⟩] 0 200 1000 =
        ⟨200, 0, [⟨100, 900⟩], 0⟩) := by
  refine ⟨?_, ?_, ?_, ?_⟩
  · intro lastStable counter hist nct s now
    unfold hysteresisUpdate
    dsimp only
    split_ifs with h1 h2 h3
    · exact ⟨rfl, rfl⟩
    · exact absurd h3.2 (by simp [centsJumpGt50_self])
    · exact ⟨rfl, rfl⟩
    · exact ⟨rfl, rfl⟩
  · norm_num
  · rw [show ((200 : ℝ) / 100) = 2 by norm_num, Real.logb_self_eq_one one_lt_two]
    norm_num
  · norm_num [hysteresisUpdate, centsJumpGt50]

/-- C2 (amended): a frame whose loudness reading is −∞ never changes the
committed note or frequency (the source deliberately keeps them, «pour une
meilleure UX»); it sets the status to `waiting` (with cents and accuracy 0)
exactly when the prior `stableCounter` is below the stability threshold,
and decays the counter by one, floored at 0. -/
theorem C2_silence_amended (st : TuningState) (now : ℤ) (est : ℚ) :
    (processFrame st now none true est).detectedNote = st.detectedNote ∧
    (processFrame st now none true est).detectedFreq = st.detectedFreq ∧
    (processFrame st now none true est).tuningStatus =
      (if st.stableCounter < STABILITY_THRESHOLD then .waiting else st.tuningStatus) ∧
    (processFrame st now none true est).stableCounter = max 0 (st.stableCounter - 1) := by
  unfold processFrame processFrameWith processFrameAux
  simp only [detectAttack, volumeJumpGt8, attackVolumeOk]
  norm_num
  split_ifs <;> simp_all

/-- Counterexample to C2 as stated: from a prior state with a committed E2
at counter 5, an all-silence frame leaves status `tuned` (not `waiting`),
the note present and the frequency non-zero. -/
theorem C2_counterexample :
    ((processFrame silenceState 1000 none true 0).tuningStatus = TuningStatus.tuned ∧
      TuningStatus.tuned ≠ TuningStatus.waiting) ∧
    (processFrame silenceState 1000 none true 0).detectedNote = some "E2" ∧
    ((processFrame silenceState 1000 none true 0).detectedFreq = 8241/100 ∧
      (8241/100 : ℚ) ≠ 0) := by
  refine ⟨⟨?_, by simp⟩, ?_, ?_, by norm_num⟩ <;>
    norm_num [silenceState, processFrame, processFrameWith, processFrameAux,
      detectAttack, volumeJumpGt8, attackVolumeOk, STABILITY_THRESHOLD,
      ATTACK_IGNORE_TIME]

lemma hysteresisUpdate_counter (lastStable : ℚ) (counter : ℤ)
    (hist : List FrequencyReading) (nct : ℤ) (s : ℚ) (now : ℤ) :
    (hysteresisUpdate lastStable counter hist nct s now).counter = counter + 1 ∨
    (hysteresisUpdate lastStable counter hist nct s now).counter = 0 ∨
    (hysteresisUpdate lastStable counter hist nct s now).counter = max 0 (counter - 1) := by
  unfold hysteresisUpdate
  dsimp only
  split_ifs <;> simp

/-- C9: across every per-frame pipeline path, a non-negative `stableCounter`
stays non-negative, and whenever it decreases within a frame it is either
reset to exactly 0 or decremented by exactly 1 (floored at 0). -/
theorem C9_counter_invariant (st : TuningState) (now : ℤ) (cur : Option ℚ)
    (wOk : Bool) (est : ℚ) (h : 0 ≤ st.stableCounter) :
    0 ≤ (processFrame st now cur wOk est).stableCounter ∧
    ((processFrame st now cur wOk est).stableCounter < st.stableCounter →
      (processFrame st now cur wOk est).stableCounter = 0 ∨
      (processFrame st now cur wOk est).stableCounter = st.stableCounter - 1) := by
  unfold processFrame processFrameWith processFrameAux
  by_cases hatk : volumeJumpGt8 cur st.lastVolume = true ∧
      attackVolumeOk cur = true ∧ now - st.attackTime > 300
  · rw [detectAttack, if_pos hatk]
    rcases wOk with _ | _
    · simp
    · rcases cur with _ | c
      · simp [STABILITY_THRESHOLD]
      · simp [ATTACK_IGNORE_TIME, STABILITY_THRESHOLD]
  · rw [detectAttack, if_neg hatk]
    rcases wOk with _ | _
    · simp
      split_ifs <;> simp <;> omega
    · rcases cur with _ | c
      · simp [STABILITY_THRESHOLD]
        split_ifs <;> simp <;> omega
      · by_cases hflip : st.isAttack = true ∧ now - st.attackTime > ATTACK_IGNORE_TIME
        · obtain hc | hc | hc := hysteresisUpdate_counter st.lastStableFreq st.stableCounter
              (calculateMovingAverage st.history est now).1 st.noteChangeTime
              (calculateMovingAverage st.history est now).2 now <;>
            (simp [hflip, STABILITY_THRESHOLD, hc]
             split_ifs <;> first
               | omega
               | (simp [hc] <;> omega)
               | (split <;> simp [hc] <;> omega))
        · obtain hc | hc | hc := hysteresisUpdate_counter st.lastStableFreq st.stableCounter
              (calculateMovingAverage st.history est now).1 st.noteChangeTime
              (calculateMovingAverage st.history est now).2 now <;>
            (simp [hflip, STABILITY_THRESHOLD, hc]
             split_ifs <;> first
               | omega
               | (simp [hc] <;> omega)
               | (split <;> simp [hc] <;> omega))

/-- Witness for C9 at a concrete committed state (counter 5, silence frame). -/
theorem C9_witness :
    0 ≤ (processFrame silenceState 1000 none true 0).stableCounter :=
  (C9_counter_invariant silenceState 1000 none true 0
    (by norm_num [silenceState])).1

lemma processFrameAux_status (centsOf : ℚ → ℚ → ℤ) (st : TuningState) (now : ℤ)
    (cur : Option ℚ) (wOk : Bool) (est : ℚ) :
    (processFrameAux centsOf st now cur wOk est).1.tuningStatus = st.tuningStatus ∨
    (processFrameAux centsOf st now cur wOk est).1.tuningStatus = TuningStatus.waiting ∨
    (processFrameAux centsOf st now cur wOk est).2 = true := by
  unfold processFrameAux
  by_cases hatk : volumeJumpGt8 cur st.lastVolume = true ∧
      attackVolumeOk cur = true ∧ now - st.attackTime > 300
  · rw [detectAttack, if_pos hatk]
    rcases wOk with _ | _
    · simp
    · rcases cur with _ | c
      · simp [STABILITY_THRESHOLD]
      · simp [ATTACK_IGNORE_TIME, STABILITY_THRESHOLD]
  · rw [detectAttack, if_neg hatk]
    rcases wOk with _ | _
    · simp
      split_ifs <;> simp
    · rcases cur with _ | c
      · simp [STABILITY_THRESHOLD]
        split_ifs <;> simp
      · by_cases hflip : st.isAttack = true ∧ now - st.attackTime > ATTACK_IGNORE_TIME
        · simp [hflip, STABILITY_THRESHOLD]
          split_ifs <;> first
            | simp
            | (split <;> simp)
        · simp [hflip, STABILITY_THRESHOLD]
          split_ifs <;> first
            | simp
            | (split <;> simp)

/-- C4 (amended): the status type has exactly seven values — there is no
separate `attack` status; transients are reported through the separate
`inAttack` flag — and every frame that does not take the
committed-with-matching-string path leaves the status unchanged or sets it
to `waiting`, for every cents function and state. -/
theorem C4_status_amended :
    Fintype.card TuningStatus = 7 ∧
    ∀ (centsOf : ℚ → ℚ → ℤ) (st : TuningState) (now : ℤ) (cur : Option ℚ)
      (wOk : Bool) (est : ℚ),
      (processFrameAux centsOf st now cur wOk est).2 = false →
      (processFrameAux centsOf st now cur wOk est).1.tuningStatus = st.tuningStatus ∨
      (processFrameAux centsOf st now cur wOk est).1.tuningStatus = TuningStatus.waiting := by
  refine ⟨by rfl, ?_⟩
  intro centsOf st now cur wOk est h
  rcases processFrameAux_status centsOf st now cur wOk est with h1 | h2 | h3
  · exact Or.inl h1
  · exact Or.inr h2
  · rw [h3] at h
    exact absurd h (by simp)

/-- Counterexample to C4 as stated: the status type has seven values, not
eight, and an uncommitted frame with `inAttack = true` yields status
`waiting`, not a distinct `attack` status. -/
theorem C4_counterexample :
    Fintype.card TuningStatus = 7 ∧
    (processFrameAux freqToCents attackGateState 1000 (some (-60)) true 0).2 = false ∧
    (processFrame attackGateState 1000 (some (-60)) true 0).isAttack = true ∧
    (processFrame attackGateState 1000 (some (-60)) true 0).tuningStatus =
      TuningStatus.waiting := by
  refine ⟨by rfl, ?_, ?_, ?_⟩ <;>
    norm_num [attackGateState, processFrame, processFrameWith, processFrameAux,
      detectAttack, volumeJumpGt8, attackVolumeOk, getAdjustedVolumeThreshold,
      VOLUME_THRESHOLD, STABILITY_THRESHOLD, ATTACK_IGNORE_TIME]

/-- Witness for C4's amended theorem at a concrete uncommitted frame. -/
theorem C4_witness :
    (processFrameAux (fun _ _ => 0) attackGateState 1000 (some (-60)) true 0).1.tuningStatus =
        attackGateState.tuningStatus ∨
    (processFrameAux (fun _ _ => 0) attackGateState 1000 (some (-60)) true 0).1.tuningStatus =
        TuningStatus.waiting :=
  C4_status_amended.2 (fun _ _ => 0) attackGateState 1000 (some (-60)) true 0
    (by norm_num [attackGateState, processFrameAux, detectAttack, volumeJumpGt8,
      attackVolumeOk, getAdjustedVolumeThreshold, VOLUME_THRESHOLD,
      STABILITY_THRESHOLD, ATTACK_IGNORE_TIME])

/-- C10: in `findFundamentalFrequency`, the difference-function loops read
`windowedBuffer[i]` and `windowedBuffer[i + tau]` with
`i < N/2`, `tau < N/2`, which is in bounds for every buffer of even length
`N`; and under the precondition `⌊rate/minDetectFreq⌋ < N/2 − 1` every read
of `yinBuffer` in the local-minimum scan — `tau − 1`, `tau` and `tau + 1`
for `minPeriod ≤ tau ≤ maxPeriod`, including `tau + 1` at
`tau = maxPeriod` — is within the difference array's bounds `[0, N/2)`. -/
theorem C10_index_bounds (N : ℕ) (rate : ℚ) (hN : 2 ∣ N)
    (hpre : ⌊rate / MIN_DETECT_FREQ⌋ < (yinBufferSize N : ℤ) - 1) :
    (∀ i tau : ℕ, i < yinBufferSize N → tau < yinBufferSize N →
      i < N ∧ i + tau < N) ∧
    (∀ tau : ℤ, minPeriod rate ≤ tau → tau ≤ maxPeriod N rate →
      0 ≤ tau - 1 ∧ tau - 1 < (yinBufferSize N : ℤ) ∧
      0 ≤ tau ∧ tau < (yinBufferSize N : ℤ) ∧
      0 ≤ tau + 1 ∧ tau + 1 < (yinBufferSize N : ℤ)) := by
  constructor
  · intro i tau hi htau
    simp only [yinBufferSize] at hi htau ⊢
    omega
  · intro tau h1 h2
    have hmin : (2 : ℤ) ≤ minPeriod rate := le_max_left _ _
    have hmax : maxPeriod N rate ≤ ⌊rate / MIN_DETECT_FREQ⌋ := min_le_right _ _
    simp only [yinBufferSize] at hpre ⊢
    omega

/-- Witness for C10 at the default buffer size (16384 samples) and a
44.1 kHz sample rate, at the largest scanned period `tau = 630`. -/
theorem C10_witness :
    (0 : ℤ) ≤ 630 - 1 ∧ (630 : ℤ) - 1 < (yinBufferSize 16384 : ℤ) ∧
    (0 : ℤ) ≤ 630 ∧ (630 : ℤ) < (yinBufferSize 16384 : ℤ) ∧
    (0 : ℤ) ≤ 630 + 1 ∧ (630 : ℤ) + 1 < (yinBufferSize 16384 : ℤ) :=
  (C10_index_bounds 16384 44100 (by norm_num)
      (by norm_num [MIN_DETECT_FREQ, yinBufferSize])).2 630
    (by norm_num [minPeriod, MAX_DETECT_FREQ])
    (by norm_num [maxPeriod, yinBufferSize, MIN_DETECT_FREQ])
